import Mathlib

/-!
Verification of the spreg fixed-effects spatial-lag panel estimator
(`spreg/panel_fe.py`) and of the sklearn-style formula front end
(`spreg/sklearn/formula.py`).

Numeric code is shallowly embedded over `ℚ` (machine floats idealised as
exact rationals).  The floating-point logarithm `np.log` is carried as an
uninterpreted function parameter `rlog : ℚ → ℚ`, since the structural
claims under verification do not depend on any property of the logarithm.
External library calls (`scipy.sparse.linalg.splu`, `scipy.optimize.
minimize_scalar`, `formulaic.model_matrix`) are modelled by executable
functions that realise their documented contracts; each such model is
marked in its doc string.  Strings of the formula mini-language are
embedded as `List Char`, with Python's string primitives reimplemented
faithfully.
-/

/-! ## Sparse LU model (scipy.sparse.linalg.splu)

`lag_c_loglik_sp` only consumes the diagonal of the upper-triangular LU
factor, `LU.U.diagonal()`.  We model this by Gaussian elimination with row
pivoting: at each step a row with nonzero leading entry is selected; the
elimination fails exactly when the whole leading column is zero, which is
the situation in which `splu` raises "Factor is exactly singular". -/

/-- Select the first row whose leading entry is nonzero, returning it with
the remaining rows; `none` when the leading column is entirely zero. -/
def findPivot : List (List ℚ) → Option (List ℚ × List (List ℚ))
  | [] => none
  | r :: rs =>
    if r.headD 0 ≠ 0 then some (r, rs)
    else
      match findPivot rs with
      | none => none
      | some (p, rest) => some (p, r :: rest)

/-- One Gaussian elimination step: subtract the multiple of the pivot row
that cancels the leading entry of `r`, and drop the leading column. -/
def elimRow (piv : List ℚ) (ph : ℚ) (r : List ℚ) : List ℚ :=
  List.zipWith (fun a b => a - r.headD 0 / ph * b) r.tail piv.tail

/-- `m` elimination steps, collecting the pivots, i.e. the diagonal of the
upper-triangular factor `U`. -/
def luDiagsN : ℕ → List (List ℚ) → Option (List ℚ)
  | 0, _ => some []
  | m + 1, rows =>
    match findPivot rows with
    | none => none
    | some (p, rest) =>
      (luDiagsN m (rest.map (elimRow p (p.headD 0)))).map fun ds => p.headD 0 :: ds

/-- Model of `SuperLU(a.tocsc())` followed by `LU.U.diagonal()`:
the diagonal of `U`, or `none` when the factorization raises because the
matrix is exactly singular. -/
def luDiags (rows : List (List ℚ)) : Option (List ℚ) :=
  luDiagsN rows.length rows

/-- The matrix `a = I - rho * Wsp` built at panel_fe.py line 340, with the
sparse weights represented by their dense value grid. -/
def idMinusRhoW (rho : ℚ) (W : List (List ℚ)) : List (List ℚ) :=
  W.enum.map fun ir =>
    ir.2.enum.map fun jc => (if ir.1 = jc.1 then 1 else 0) - rho * jc.2

/-- Embedding of `lag_c_loglik_sp` (panel_fe.py lines 332-344): the
concentrated log-likelihood for the lag model, in sparse algebra.
`rlog` is the floating `np.log`; the result is `none` when the sparse LU
factorization of `I - rho*W` raises. -/
def lag_c_loglik_sp (rlog : ℚ → ℚ) (rho : ℚ) (n t : ℕ) (e0 e1 : List ℚ)
    (W : List (List ℚ)) : Option ℚ :=
  let er := List.zipWith (fun a b => a - rho * b) e0 e1
  let sig2 := (er.map fun v => v * v).sum / ((n : ℚ) * t)
  let nlsig2 := ((n : ℚ) * t / 2) * rlog sig2
  match luDiags (idMinusRhoW rho W) with
  | none => none
  | some ds => some (nlsig2 - (t : ℚ) * (ds.map fun d => rlog |d|).sum)

/-- The value the specification prescribes for the evaluator:
`(n*t/2)*ln(e'e/(n*t))` minus the log-Jacobian `t * Σ ln |U_ii|`, stated
directly from the spec's wording, for comparison with the code. -/
def clikSpecValue (rlog : ℚ → ℚ) (rho : ℚ) (n t : ℕ) (e0 e1 : List ℚ)
    (ds : List ℚ) : ℚ :=
  let er := List.zipWith (fun a b => a - rho * b) e0 e1
  ((n : ℚ) * t / 2) * rlog ((er.map fun v => v * v).sum / ((n : ℚ) * t)) -
    (t : ℚ) * (ds.map fun d => rlog |d|).sum

/-! ## Bounded scalar search driver

`BasePanel_FE_Lag.__init__` (lines 117-121) passes `lag_c_loglik_sp`
directly to `scipy.optimize.minimize_scalar(..., method='bounded')` with
no exception handling anywhere on the path.  The bounded method evaluates
the objective at a sequence of interior trial points; an exception raised
by the objective propagates out of the optimizer.  `runSearch` models
this driver: trial points are evaluated in order, a `none` (raised
exception) aborts the whole search, otherwise the best point is kept. -/

def runSearchAux (f : ℚ → Option ℚ) : List ℚ → ℚ × ℚ → Option (ℚ × ℚ)
  | [], best => some best
  | x :: rest, best =>
    match f x with
    | none => none
    | some v => runSearchAux f rest (if v < best.2 then (x, v) else best)

/-- The search driver: objective evaluations in order, first failure
aborts, otherwise the minimising trial point and its value. -/
def runSearch (f : ℚ → Option ℚ) : List ℚ → Option (ℚ × ℚ)
  | [] => none
  | x :: rest =>
    match f x with
    | none => none
    | some v => runSearchAux f rest (x, v)

/-- The concrete floating log is irrelevant to every structural claim;
this instantiation is used for concrete evaluations. -/
def rlog0 : ℚ → ℚ := fun _ => 0

/-- The concentrated objective wired as in `__init__`, on a 1-unit,
1-period panel with the (un-normalised, non-negative) weight matrix
`[[2]]`: at the interior trial `rho = 1/2` the matrix `I - rho*W` is the
zero matrix and the factorization fails. -/
def singularObjective : ℚ → Option ℚ :=
  fun rho => lag_c_loglik_sp rlog0 rho 1 1 [1] [0] [[2]]

/-! ## Golden-section model of `minimize_scalar(..., method='bounded')`

scipy's bounded method (fminbound) brackets by golden section (with
parabolic acceleration) and both evaluates and returns only points
strictly interior to the bounds.  `gss` models the bracketing skeleton:
a fixed golden fraction of the interval is cut off on one side per step,
and the returned point is always strictly interior. -/

/-- The golden-section fraction `(3 - sqrt 5)/2`, rationalised. -/
def gr : ℚ := 381966 / 1000000

/-- Golden-section bounded search skeleton. -/
def gss (f : ℚ → ℚ) : ℚ → ℚ → ℕ → ℚ
  | lo, hi, 0 => lo + gr * (hi - lo)
  | lo, hi, m + 1 =>
    let c := lo + gr * (hi - lo)
    let d := hi - gr * (hi - lo)
    if f c ≤ f d then gss f lo d m else gss f c hi m

/-- The fitted `rho`: result of the bounded search over `(-1, 1)`, the
bounds hard-coded at panel_fe.py line 118. -/
def fittedRho (f : ℚ → ℚ) (iters : ℕ) : ℚ := gss f (-1) 1 iters

/-! ## Python string primitives

The formula front end is pure string manipulation; strings are embedded
as `List Char` and Python's primitives are reimplemented faithfully. -/

/-- Helper for `pyFind`: index of the first occurrence of `c`, counting
from `i`. -/
def pyFindAux (c : Char) : List Char → ℕ → Option ℕ
  | [], _ => none
  | x :: xs, i => if x = c then some i else pyFindAux c xs (i + 1)

/-- Python `s.find(c, start)`: first index `>= start` holding `c`, or
`-1` when there is none. -/
def pyFind (s : List Char) (c : Char) (start : ℕ) : Int :=
  match pyFindAux c (s.drop start) 0 with
  | none => -1
  | some k => ((start + k : ℕ) : Int)

/-- Helper for `pySplitOn`: scan for the separator `sep`, accumulating
the current chunk reversed.  The fuel argument (instantiated with one
more than the scanned string's length, enough for a nonempty separator)
keeps the recursion structural so that terms reduce definitionally. -/
def pySplitOnAux (sep : List Char) : ℕ → List Char → List Char → List (List Char)
  | 0, s, acc => [acc.reverse ++ s]
  | _ + 1, [], acc => [acc.reverse]
  | m + 1, x :: rest, acc =>
    if sep.isPrefixOf (x :: rest) then
      acc.reverse :: pySplitOnAux sep m ((x :: rest).drop sep.length) []
    else pySplitOnAux sep m rest (x :: acc)

/-- Python `s.split(sep)` for a nonempty separator string. -/
def pySplitOn (sep s : List Char) : List (List Char) :=
  pySplitOnAux sep (s.length + 1) s []

/-- ASCII whitespace, the characters Python `str.strip()` removes on the
inputs at hand. -/
def pyIsSpace (c : Char) : Bool := c = ' ' || c = '\t' || c = '\n' || c = '\r'

/-- Python `s.strip()`. -/
def pyStrip (s : List Char) : List Char :=
  ((s.dropWhile pyIsSpace).reverse.dropWhile pyIsSpace).reverse

/-! ## The formula front end (spreg/sklearn/formula.py) -/

/-- Embedding of `expand_lag` (formula.py lines 21-29) in its list form:
one `{w.sparse @ `field`}` term per field, joined by " + ". -/
def expand_lag (wname : List Char) (fields : List (List Char)) : List Char :=
  List.intercalate (" + ").data
    (fields.map fun f =>
      ("\x7b").data ++ wname ++ (".sparse @ `").data ++ f ++ ("`\x7d").data)

/-- Embedding of the `while lag_start_idx > 0` loop of `from_formula`
(formula.py lines 163-188).  State: remaining fuel (the loop runs at most
`formula.length` times since `lag_start_idx` strictly increases),
`lag_start_idx`, `lag_end_idx`, the accumulated `parsed_formula`, and the
`lag_model` / `spatial_model` flags. -/
def lagLoop (formula y_name : List Char) :
    ℕ → Int → Int → List Char → Bool → Bool →
    Except String (List Char × Int × Bool × Bool)
  | 0, _, _, _, _, _ => Except.error "loop fuel exhausted (unreachable)"
  | m + 1, lag_start, lag_end, parsed, lagm, spat =>
    if lag_start > 0 then
      let lag_end2 := pyFind formula '>' (lag_start.toNat + 1)
      if lag_end2 < 0 then Except.error "Mismatched angle brackets"
      else
        let lag_str := (formula.take lag_end2.toNat).drop (lag_start.toNat + 1)
        let fields0 := pySplitOn (" + ").data lag_str
        let lagm2 := if fields0.contains y_name then true else lagm
        let fields := if fields0.contains y_name then fields0.erase y_name else fields0
        let parsed2 :=
          if 0 < fields.length then
            parsed ++ List.intercalate (" + ").data fields ++ (" + ").data ++
              expand_lag ("w").data fields
          else parsed.take (parsed.length - 3)
        let lag_start2 := pyFind formula '<' (lag_start.toNat + 1)
        let parsed3 :=
          if lag_start2 ≥ 0 then
            parsed2 ++ (formula.take lag_start2.toNat).drop (lag_end2.toNat + 1)
          else parsed2
        lagLoop formula y_name m lag_start2 lag_end2 parsed3 lagm2 true
    else
      Except.ok (parsed, lag_end, lagm, spat)

/-- Embedding of the tail of `from_formula` after the lag loop
(formula.py lines 188-202): unpack on " ~ ", detect and strip a spatial
error term "&", check that a spatial model comes with weights, and append
" - 1".  Returns the final parsed formula with the `lag_model` and
`err_model` flags that drive the model dispatch. -/
def errPhase (parsed : List Char) (lagm spat : Bool) (hasW : Bool) :
    Except String (List Char × Bool × Bool) :=
  match pySplitOn (" ~ ").data parsed with
  | [lhs, rhs] =>
    let terms := pySplitOn (" + ").data rhs
    let errm := terms.contains ("&").data
    let spat2 := spat || errm
    let parsed2 :=
      if errm then
        lhs ++ (" ~ ").data ++ List.intercalate (" + ").data (terms.erase ("&").data)
      else parsed
    if spat2 && !hasW then
      Except.error "Requested spatial model but did not provide weights matrix"
    else Except.ok (parsed2 ++ (" - 1").data, lagm, errm)
  | _ => Except.error "not enough values to unpack"

/-- Embedding of the string-processing phase of `from_formula`
(formula.py lines 150-202): everything up to the `model_matrix` call.
`hasW` records whether a weights matrix was supplied. -/
def from_formula (formula : List Char) (hasW : Bool) :
    Except String (List Char × Bool × Bool) :=
  if formula.length < 5 then Except.error "Malformed formula string"
  else
    let lag_start := pyFind formula '<' 0
    let parsed0 := if lag_start ≥ 0 then formula.take lag_start.toNat else []
    let y_name := pyStrip ((pySplitOn ("~").data formula).headD [])
    match lagLoop formula y_name (formula.length + 1) lag_start (-1) parsed0
        false false with
    | Except.error e => Except.error e
    | Except.ok (parsed, lag_end, lagm, spat) =>
      errPhase (parsed ++ formula.drop (lag_end + 1).toNat) lagm spat hasW

/-! ## Spatial operator builder (panel_fe.py lines 100-103)

`W_nt = np.kron(np.identity(t), W)` and
`Wsp_nt = sp.kron(sp.identity(t), Wsp)`.  The dense path is the Kronecker
product with a `t`-identity; the sparse path is modelled on COO storage:
a list of `(row, col, value)` entries, replicated per diagonal block. -/

/-- Dense spatial operator: `np.kron(np.identity(t), W)`. -/
def W_nt (t n : ℕ) (W : Matrix (Fin n) (Fin n) ℚ) :
    Matrix (Fin t × Fin n) (Fin t × Fin n) ℚ :=
  Matrix.kroneckerMap (· * ·) (1 : Matrix (Fin t) (Fin t) ℚ) W

/-- Value of a COO entry list at position `(i, j)` (duplicate entries add,
as in scipy's COO semantics). -/
def cooVal (es : List (ℕ × ℕ × ℚ)) (i j : ℕ) : ℚ :=
  (es.map fun e => if e.1 = i ∧ e.2.1 = j then e.2.2 else 0).sum

/-- Shift all entries of a COO list into the diagonal block at `off`. -/
def shiftEntries (off : ℕ) (es : List (ℕ × ℕ × ℚ)) : List (ℕ × ℕ × ℚ) :=
  es.map fun e => (off + e.1, off + e.2.1, e.2.2)

/-- Sparse spatial operator: `sp.kron(sp.identity(t), Wsp)` in COO form,
one shifted copy of the entries of `Wsp` per time block. -/
def Wsp_nt (n : ℕ) (es : List (ℕ × ℕ × ℚ)) : ℕ → List (ℕ × ℕ × ℚ)
  | 0 => []
  | a + 1 => Wsp_nt n es a ++ shiftEntries (a * n) es

/-! ## Information matrix assembly (panel_fe.py lines 167-179)

`v = hstack(v1, v2, v3)` with the variable order beta, rho, sigma2; the
covariance matrix is `vm1 = inv(v)`.  `xtx = spdot(self.x.T, self.x)`
(line 107) is kept in derived form; the scalars entering the rho/sigma2
rows are carried as parameters, placed exactly as the code places them. -/

/-- The assembled `(k+2) x (k+2)` information matrix `v`. -/
def infoMat (k N : ℕ) (x : Matrix (Fin N) (Fin k) ℚ) (xTwpy : Fin k → ℚ)
    (t : ℕ) (tr1 tr2 tr3 wpyTwpy sig2 : ℚ) (n : ℕ) :
    Matrix (Fin (k + 2)) (Fin (k + 2)) ℚ :=
  fun i j =>
    if hi : i.val < k then
      if hj : j.val < k then (x.transpose * x) ⟨i.val, hi⟩ ⟨j.val, hj⟩ / sig2
      else if j.val = k then xTwpy ⟨i.val, hi⟩ / sig2
      else 0
    else if i.val = k then
      if hj : j.val < k then xTwpy ⟨j.val, hj⟩ / sig2
      else if j.val = k then (t : ℚ) * (tr2 + tr3) + wpyTwpy / sig2
      else (t : ℚ) * tr1 / sig2
    else
      if j.val < k then 0
      else if j.val = k then (t : ℚ) * tr1 / sig2
      else (n : ℚ) * t / (2 * sig2 ^ 2)

/-- `self.vm1 = la.inv(v)` (line 178): the `(k+2) x (k+2)` covariance
matrix including the sigma2 parameter. -/
noncomputable def vm1 (k N : ℕ) (x : Matrix (Fin N) (Fin k) ℚ)
    (xTwpy : Fin k → ℚ) (t : ℕ) (tr1 tr2 tr3 wpyTwpy sig2 : ℚ) (n : ℕ) :
    Matrix (Fin (k + 2)) (Fin (k + 2)) ℚ :=
  (infoMat k N x xTwpy t tr1 tr2 tr3 wpyTwpy sig2 n)⁻¹

/-! ## Residuals and predicted values (panel_fe.py lines 130-134) -/

/-- The estimate's stored vectors. -/
structure LagFit where
  y : List ℚ
  u : List ℚ
  predy : List ℚ

/-- Lines 133-134 of `__init__`: `u = e0 - rho*e1`,
`predy = self.y - self.u`, with `self.y` the demeaned response. -/
def baseFitResiduals (ydm e0 e1 : List ℚ) (rho : ℚ) : LagFit :=
  let u := List.zipWith (fun a b => a - rho * b) e0 e1
  { y := ydm, u := u, predy := List.zipWith (fun a b => a - b) ydm u }

/-! ## Observation-count bookkeeping (panel_fe.py lines 91-92 and 180) -/

/-- The `n` and `t` attributes of the fitted object. -/
structure PanelAttrs where
  n : ℕ
  t : ℕ

/-- `self.n = w.n`, `self.t = y.shape[0] // self.n` at lines 91-92, then
`self.n = self.n * self.t` at line 180 (the last statement of the base
constructor before the attributes become read-only). -/
def basePanelDims (wn ylen : ℕ) : PanelAttrs :=
  let n0 := wn
  let t := ylen / n0
  { n := n0 * t, t := t }

/-! ## Design-matrix contract of formulaic (external dependency)

Modelled from the spec: `model_matrix` (the `formulaic` library, called
at formula.py line 207) is external to the repository; per the spec each
top-level right-hand-side term contributes one numeric column and a
trailing "- 1" term removes the intercept column. -/

/-- Right-hand side of a parsed formula. -/
def rhsOf (parsed : List Char) : List Char :=
  match pySplitOn (" ~ ").data parsed with
  | [_, rhs] => rhs
  | _ => []

/-- Modelled from the spec: the numeric columns `model_matrix` produces
for a formula whose terms are plain fields or lag transforms — one column
per top-level term, the "- 1" term excluded. -/
def designColumns (parsed : List Char) : List (List Char) :=
  let rhs := rhsOf parsed
  let core := if (" - 1").data.isSuffixOf rhs then rhs.take (rhs.length - 4) else rhs
  pySplitOn (" + ").data core

/-- Modelled from the spec: `model_matrix` includes an intercept column
unless the formula carries the "- 1" term. -/
def hasIntercept (parsed : List Char) : Bool :=
  !((" - 1").data.isSuffixOf (rhsOf parsed))

/-! ## Helper lemmas -/

/-- A failed objective evaluation anywhere in the trial list aborts the
accumulator loop of the search driver. -/
theorem runSearchAux_none (f : ℚ → Option ℚ) :
    ∀ (trials : List ℚ) (best : ℚ × ℚ) (x : ℚ),
      x ∈ trials → f x = none → runSearchAux f trials best = none := by
  intro trials
  induction trials with
  | nil => intro best x hx; cases hx
  | cons y rest ih =>
    intro best x hx hfx
    rcases List.mem_cons.mp hx with h | h
    · subst h
      simp only [runSearchAux, hfx]
    · cases hfy : f y with
      | none => simp only [runSearchAux, hfy]
      | some v =>
        simp only [runSearchAux, hfy]
        exact ih _ x h hfx

/-- A failed objective evaluation anywhere in the trial list aborts the
search driver. -/
theorem runSearch_none (f : ℚ → Option ℚ) (trials : List ℚ) (x : ℚ)
    (hx : x ∈ trials) (hfx : f x = none) : runSearch f trials = none := by
  cases trials with
  | nil => rfl
  | cons y rest =>
    rcases List.mem_cons.mp hx with h | h
    · subst h
      simp only [runSearch, hfx]
    · cases hfy : f y with
      | none => simp only [runSearch, hfy]
      | some v =>
        simp only [runSearch, hfy]
        exact runSearchAux_none f rest (y, v) x h hfx

/-- The golden-section skeleton stays strictly inside its bracket. -/
theorem gss_mem (f : ℚ → ℚ) :
    ∀ (m : ℕ) (lo hi : ℚ), lo < hi →
      lo < gss f lo hi m ∧ gss f lo hi m < hi := by
  intro m
  induction m with
  | zero =>
    intro lo hi h
    have hgr0 : (0 : ℚ) < gr := by norm_num [gr]
    have hgr1 : gr < 1 := by norm_num [gr]
    constructor
    · simp only [gss]
      nlinarith
    · simp only [gss]
      nlinarith
  | succ m ih =>
    intro lo hi h
    have hgr0 : (0 : ℚ) < gr := by norm_num [gr]
    have hgr1 : gr < 1 := by norm_num [gr]
    simp only [gss]
    split_ifs with hf
    · have hd : lo < hi - gr * (hi - lo) := by nlinarith
      obtain ⟨h1, h2⟩ := ih lo (hi - gr * (hi - lo)) hd
      exact ⟨h1, by nlinarith⟩
    · have hc : lo + gr * (hi - lo) < hi := by nlinarith
      obtain ⟨h1, h2⟩ := ih (lo + gr * (hi - lo)) hi hc
      exact ⟨by nlinarith, h2⟩

/-! ## Claims C1, C2, C3 -/

/-- Claim C1: for every trial rho, counts n and t, reference residuals e0
and e1 and weights W, the concentrated log-likelihood evaluator returns
`(n*t/2)*ln(e'e/(n*t))` minus the log-Jacobian, where `e = e0 - rho*e1`
and the log-Jacobian is `t` times the sum of the logarithms of the
absolute values of the diagonal of the upper-triangular LU factor of
`I - rho*W`. -/
theorem claim_C1_concentrated_loglik (rlog : ℚ → ℚ) (rho : ℚ) (n t : ℕ)
    (e0 e1 : List ℚ) (W : List (List ℚ)) (ds : List ℚ)
    (h : luDiags (idMinusRhoW rho W) = some ds) :
    lag_c_loglik_sp rlog rho n t e0 e1 W =
      some (clikSpecValue rlog rho n t e0 e1 ds) := by
  simp only [lag_c_loglik_sp, clikSpecValue, h]

/-- Witness for C1 at a concrete successful factorization. -/
theorem claim_C1_witness :
    lag_c_loglik_sp rlog0 0 1 1 [1] [0] [[0]] =
      some (clikSpecValue rlog0 0 1 1 [1] [0] [1]) :=
  claim_C1_concentrated_loglik rlog0 0 1 1 [1] [0] [[0]] [1] (by
    norm_num [luDiags, luDiagsN, idMinusRhoW, findPivot, elimRow,
      List.enum, List.enumFrom])

/-- Claim C2, amended: when the LU factorization of `I - rho*W` fails at
a trial rho, the evaluator propagates the failure (the exception) instead
of returning a value, and the search driver — which wires the evaluator
in with no exception handling — aborts the entire search at the first
failed trial instead of treating that point as inadmissible. -/
theorem claim_C2_failure_aborts :
    (∀ (rlog : ℚ → ℚ) (rho : ℚ) (n t : ℕ) (e0 e1 : List ℚ)
        (W : List (List ℚ)), luDiags (idMinusRhoW rho W) = none →
        lag_c_loglik_sp rlog rho n t e0 e1 W = none) ∧
    (∀ (f : ℚ → Option ℚ) (trials : List ℚ) (x : ℚ),
        x ∈ trials → f x = none → runSearch f trials = none) := by
  constructor
  · intro rlog rho n t e0 e1 W h
    simp only [lag_c_loglik_sp, h]
  · exact runSearch_none

/-- Witness for the amended C2 at the concrete singular instance. -/
theorem claim_C2_witness :
    lag_c_loglik_sp rlog0 (1/2) 1 1 [1] [0] [[2]] = none ∧
    runSearch singularObjective [1/2, 0] = none :=
  ⟨claim_C2_failure_aborts.1 rlog0 (1/2) 1 1 [1] [0] [[2]] (by
      norm_num [luDiags, luDiagsN, idMinusRhoW, findPivot, elimRow,
        List.enum, List.enumFrom]),
   claim_C2_failure_aborts.2 singularObjective [1/2, 0] (1/2)
     (by norm_num)
     (by norm_num [singularObjective, lag_c_loglik_sp, luDiags, luDiagsN,
        idMinusRhoW, findPivot, elimRow, List.enum, List.enumFrom])⟩

/-- Counterexample to C2 as stated: on the singular trial `rho = 1/2` the
factorization fails, another trial of the same search carries the finite
value 0, yet the search result is an abort (`none`), not the best
admissible point `(0, 0)`: the optimizer crashes rather than treating the
singular trial as inadmissible. -/
theorem claim_C2_counterexample :
    singularObjective (1/2) = none ∧
    singularObjective 0 = some 0 ∧
    runSearch singularObjective [1/2, 0] = none ∧
    runSearch singularObjective [1/2, 0] ≠ some (0, 0) := by
  have h3 : runSearch singularObjective [1/2, 0] = none := by
    norm_num [runSearch, runSearchAux, singularObjective, lag_c_loglik_sp,
      luDiags, luDiagsN, idMinusRhoW, findPivot, elimRow, List.enum,
      List.enumFrom, rlog0]
  refine ⟨?_, ?_, h3, by intro hcon; rw [h3] at hcon; exact Option.noConfusion hcon⟩ <;>
    norm_num [singularObjective, lag_c_loglik_sp, luDiags, luDiagsN,
      idMinusRhoW, findPivot, elimRow, List.enum, List.enumFrom, rlog0]

/-- Claim C3: the fitted spatial autoregressive coefficient produced by
the bounded scalar search over `(-1, 1)` lies strictly inside the open
interval `(-1, 1)`, for every objective and every iteration count. -/
theorem claim_C3_rho_in_open_interval (f : ℚ → ℚ) (iters : ℕ) :
    fittedRho f iters ∈ Set.Ioo (-1 : ℚ) 1 := by
  have h := gss_mem f iters (-1) 1 (by norm_num)
  exact ⟨h.1, h.2⟩

/-! ## Claims C6 and C9 -/

/-- Claim C6: reconstructing the predicted values as `y - u` (demeaned
response minus residuals) exactly matches the `predy` stored on the model
estimate. -/
theorem claim_C6_predy_roundtrip (ydm e0 e1 : List ℚ) (rho : ℚ) :
    List.zipWith (fun a b => a - b) (baseFitResiduals ydm e0 e1 rho).y
        (baseFitResiduals ydm e0 e1 rho).u =
      (baseFitResiduals ydm e0 e1 rho).predy := rfl

/-- Counterexample to C9 as stated: with 2 spatial units and 6 stacked
observations (t = 3), the `n` attribute of the fitted object is 6, not
the unit count 2. -/
theorem claim_C9_counterexample :
    (basePanelDims 2 6).n = 6 ∧ (basePanelDims 2 6).n ≠ 2 := by
  constructor <;> simp [basePanelDims]

/-- Claim C9, amended: after the fit, the `t` attribute equals the period
count, while the `n` attribute equals the total observation count `n*t`
(as the class docstring states), not the spatial unit count. -/
theorem claim_C9_n_is_total_observations (wn t0 : ℕ) (hw : 0 < wn) :
    (basePanelDims wn (wn * t0)).t = t0 ∧
    (basePanelDims wn (wn * t0)).n = wn * t0 := by
  constructor <;> simp [basePanelDims, Nat.mul_div_cancel_left _ hw]

/-- Witness for the amended C9 on a concrete panel. -/
theorem claim_C9_witness :
    (basePanelDims 2 (2 * 3)).t = 3 ∧ (basePanelDims 2 (2 * 3)).n = 2 * 3 :=
  claim_C9_n_is_total_observations 2 3 (by norm_num)

/-! ## Claims C7, C8, C10 -/

/-- Claim C7: the formula "y ~ x1 + <x2>" with weights supplied expands
to "y ~ x1 + x2 + \x7bw.sparse @ `x2`\x7d - 1", which yields exactly the
3 numeric columns x1, x2 and the spatial lag of x2, and no intercept
column, under the formulaic contract. -/
theorem claim_C7_formula_expansion :
    from_formula ("y ~ x1 + <x2>").data true =
        Except.ok (("y ~ x1 + x2 + \x7bw.sparse @ `x2`\x7d - 1").data,
          false, false) ∧
    designColumns (("y ~ x1 + x2 + \x7bw.sparse @ `x2`\x7d - 1").data) =
        [("x1").data, ("x2").data, ("\x7bw.sparse @ `x2`\x7d").data] ∧
    (designColumns (("y ~ x1 + x2 + \x7bw.sparse @ `x2`\x7d - 1").data)).length
        = 3 ∧
    hasIntercept (("y ~ x1 + x2 + \x7bw.sparse @ `x2`\x7d - 1").data) = false :=
  ⟨rfl, rfl, rfl, rfl⟩

/-- Counterexample to C8 as stated: "<x1 ~ y" contains an opening bracket
(at position 0) with no closing bracket anywhere, yet the parser succeeds
and silently passes the dangling bracket through. -/
theorem claim_C8_counterexample :
    pyFind ("<x1 ~ y").data '<' 0 = 0 ∧
    pyFind ("<x1 ~ y").data '>' 0 = -1 ∧
    from_formula ("<x1 ~ y").data false =
      Except.ok (("<x1 ~ y - 1").data, false, false) :=
  ⟨rfl, rfl, rfl⟩

/-- Claim C8, amended: for every formula whose first opening bracket sits
at a position of at least 1 and has no closing bracket after it, the
parser fails with the mismatched-brackets error before any numeric work;
a dangling opening bracket at position 0 is instead silently ignored. -/
theorem claim_C8_mismatched_brackets (formula : List Char) (hasW : Bool)
    (i : ℕ) (hlen : 5 ≤ formula.length)
    (hfind : pyFind formula '<' 0 = (i : Int)) (hi : 1 ≤ i)
    (hclose : pyFind formula '>' (i + 1) = -1) :
    from_formula formula hasW = Except.error "Mismatched angle brackets" := by
  have hnotlt : ¬ formula.length < 5 := by omega
  have hpos : (0 : Int) < (i : Int) := by exact_mod_cast hi
  have htn : ((i : Int)).toNat = i := Int.toNat_natCast i
  simp only [from_formula, hfind]
  rw [if_neg hnotlt]
  simp only [lagLoop, htn, hclose]
  rw [if_pos hpos]
  norm_num

/-- Witness for the amended C8 on the spec's own example "y ~ <x1". -/
theorem claim_C8_witness :
    from_formula ("y ~ <x1").data false =
      Except.error "Mismatched angle brackets" :=
  claim_C8_mismatched_brackets ("y ~ <x1").data false 4 (by decide) rfl
    (by decide) rfl

/-- Claim C10: a formula whose first character is the opening spatial-lag
bracket undergoes no spatial-lag expansion at all: the bracketed text is
passed through to the error-phase unchanged and neither the lag-model
flag nor the spatial-model flag is set by that bracket. -/
theorem claim_C10_leading_bracket_ignored (rest : List Char) (hasW : Bool)
    (hlen : 5 ≤ ('<' :: rest).length) :
    from_formula ('<' :: rest) hasW = errPhase ('<' :: rest) false false hasW := by
  have hnotlt : ¬ ('<' :: rest).length < 5 := by omega
  have hfind : pyFind ('<' :: rest) '<' 0 = 0 := by
    simp [pyFind, pyFindAux]
  simp only [from_formula, hfind]
  rw [if_neg hnotlt]
  simp only [lagLoop]
  norm_num

/-- Witness for C10 on a concrete leading-bracket formula. -/
theorem claim_C10_witness :
    from_formula ('<' :: ("x1 ~ y").data) false =
      errPhase ('<' :: ("x1 ~ y").data) false false false :=
  claim_C10_leading_bracket_ignored (("x1 ~ y").data) false (by decide)

/-! ## Helper lemmas for the spatial operator -/

/-- COO evaluation distributes over concatenation. -/
theorem cooVal_cons (e : ℕ × ℕ × ℚ) (es : List (ℕ × ℕ × ℚ)) (i j : ℕ) :
    cooVal (e :: es) i j =
      (if e.1 = i ∧ e.2.1 = j then e.2.2 else 0) + cooVal es i j := by
  simp [cooVal]

/-- COO evaluation distributes over concatenation. -/
theorem cooVal_append (l1 l2 : List (ℕ × ℕ × ℚ)) (i j : ℕ) :
    cooVal (l1 ++ l2) i j = cooVal l1 i j + cooVal l2 i j := by
  simp [cooVal]

/-- Shifting a COO block translates its evaluation. -/
theorem cooVal_shift (off : ℕ) (es : List (ℕ × ℕ × ℚ)) (i j : ℕ) :
    cooVal (shiftEntries off es) (off + i) (off + j) = cooVal es i j := by
  induction es with
  | nil => rfl
  | cons e es ih =>
    simp only [shiftEntries, List.map_cons] at ih ⊢
    rw [cooVal_cons, cooVal_cons, ih]
    have hiff : (off + e.1 = off + i ∧ off + e.2.1 = off + j) ↔
        (e.1 = i ∧ e.2.1 = j) := by omega
    rw [if_congr hiff rfl rfl]

/-- A COO list with no entry at `(i, j)` evaluates to zero there. -/
theorem cooVal_eq_zero :
    ∀ (es : List (ℕ × ℕ × ℚ)) (i j : ℕ),
      (∀ e ∈ es, ¬(e.1 = i ∧ e.2.1 = j)) → cooVal es i j = 0 := by
  intro es i j
  induction es with
  | nil => intro _; rfl
  | cons e es ih =>
    intro h
    rw [cooVal_cons, if_neg (h e (List.mem_cons_self e es)), zero_add]
    exact ih fun e2 he2 => h e2 (List.mem_cons_of_mem _ he2)

/-- Interior block positions are dominated by the block bound. -/
theorem blockLt {a S b n : ℕ} (ha : a < S) (hb : b < n) :
    a * n + b < S * n := by
  have h1 : a * n + b < (a + 1) * n := by rw [Nat.succ_mul]; omega
  have h2 : (a + 1) * n ≤ S * n := Nat.mul_le_mul_right n ha
  omega

/-- All entries of the replicated sparse operator stay inside the
`T*n`-square. -/
theorem Wsp_nt_mem_bounds (n : ℕ) (es : List (ℕ × ℕ × ℚ))
    (hb : ∀ e ∈ es, e.1 < n ∧ e.2.1 < n) :
    ∀ (T : ℕ), ∀ e ∈ Wsp_nt n es T, e.1 < T * n ∧ e.2.1 < T * n := by
  intro T
  induction T with
  | zero => intro e he; simp [Wsp_nt] at he
  | succ S ih =>
    intro e he
    simp only [Wsp_nt, List.mem_append] at he
    rcases he with he | he
    · have h1 := ih e he
      rw [Nat.succ_mul]
      omega
    · simp only [shiftEntries, List.mem_map] at he
      obtain ⟨e0, he0, rfl⟩ := he
      have h1 := hb e0 he0
      rw [Nat.succ_mul]
      constructor <;> simp <;> omega

/-- Block structure of the replicated sparse operator: the entry at the
panel position `(a*n + b, c*n + d)` is the weights entry `(b, d)` when
the block indices agree and zero otherwise. -/
theorem Wsp_nt_blockEntry (n : ℕ) (es : List (ℕ × ℕ × ℚ))
    (hb : ∀ e ∈ es, e.1 < n ∧ e.2.1 < n) :
    ∀ (T a c b d : ℕ), a < T → c < T → b < n → d < n →
      cooVal (Wsp_nt n es T) (a * n + b) (c * n + d) =
        if a = c then cooVal es b d else 0 := by
  intro T
  induction T with
  | zero => intro a c b d ha; exact absurd ha (Nat.not_lt_zero a)
  | succ S ih =>
    intro a c b d ha hc hbn hdn
    simp only [Wsp_nt]
    rw [cooVal_append]
    by_cases haS : a = S
    · subst haS
      have h1 : cooVal (Wsp_nt n es a) (a * n + b) (c * n + d) = 0 := by
        apply cooVal_eq_zero
        intro e he
        have h2 := Wsp_nt_mem_bounds n es hb a e he
        omega
      by_cases hcS : c = a
      · subst hcS
        rw [h1, cooVal_shift, if_pos rfl, zero_add]
      · have hcS2 : c < a := by omega
        have h2 : cooVal (shiftEntries (a * n) es) (a * n + b) (c * n + d) = 0 := by
          apply cooVal_eq_zero
          intro e he
          simp only [shiftEntries, List.mem_map] at he
          obtain ⟨e0, he0, rfl⟩ := he
          have h3 : c * n + d < a * n := blockLt hcS2 hdn
          simp only []
          omega
        rw [h1, h2, if_neg (by omega), zero_add]
    · have haS2 : a < S := by omega
      have h2 : cooVal (shiftEntries (S * n) es) (a * n + b) (c * n + d) = 0 := by
        apply cooVal_eq_zero
        intro e he
        simp only [shiftEntries, List.mem_map] at he
        obtain ⟨e0, he0, rfl⟩ := he
        have h3 : a * n + b < S * n := blockLt haS2 hbn
        simp only []
        omega
      by_cases hcS : c = S
      · subst hcS
        have h1 : cooVal (Wsp_nt n es c) (a * n + b) (c * n + d) = 0 := by
          apply cooVal_eq_zero
          intro e he
          have h4 := Wsp_nt_mem_bounds n es hb c e he
          have h5 : c * n ≤ c * n + d := by omega
          omega
        rw [h1, h2, if_neg (by omega), zero_add]
      · have hcS2 : c < S := by omega
        rw [h2, ih a c b d haS2 hcS2 hbn hdn, add_zero]

/-! ## Claim C4 -/

/-- Claim C4: the spatial operator builder produces the block-diagonal
replication of the weights matrix — the Kronecker product of a `t`
identity with `W` — both densely and in sparse (COO) form, for any COO
representation of `W` with in-range entries. -/
theorem claim_C4_spatial_operator (t n : ℕ) (W : Matrix (Fin n) (Fin n) ℚ)
    (es : List (ℕ × ℕ × ℚ))
    (hb : ∀ e ∈ es, e.1 < n ∧ e.2.1 < n)
    (hrep : ∀ b d : Fin n, cooVal es b.val d.val = W b d)
    (a c : Fin t) (b d : Fin n) :
    (W_nt t n W (a, b) (c, d) = if a = c then W b d else 0) ∧
    (cooVal (Wsp_nt n es t) (a.val * n + b.val) (c.val * n + d.val) =
      if a = c then W b d else 0) := by
  constructor
  · show (1 : Matrix (Fin t) (Fin t) ℚ) a c * W b d = _
    rw [Matrix.one_apply, ite_mul, one_mul, zero_mul]
  · rw [Wsp_nt_blockEntry n es hb t a.val c.val b.val d.val a.isLt c.isLt
      b.isLt d.isLt]
    rcases eq_or_ne a c with h | h
    · subst h
      rw [if_pos rfl, if_pos rfl, hrep]
    · rw [if_neg (fun hh => h (Fin.val_injective hh)), if_neg h]

/-- A concrete two-unit, two-period weights example for the C4 witness:
the symmetric pair swap. -/
def Wex : Matrix (Fin 2) (Fin 2) ℚ := fun i j => if i = j then 0 else 1

/-- COO entries of `Wex`. -/
def exEntries : List (ℕ × ℕ × ℚ) := [(0, 1, 1), (1, 0, 1)]

/-- Witness for C4 at a concrete block position. -/
theorem claim_C4_witness :
    (W_nt 2 2 Wex ((1 : Fin 2), (0 : Fin 2)) ((1 : Fin 2), (1 : Fin 2)) =
        if (1 : Fin 2) = (1 : Fin 2) then Wex 0 1 else 0) ∧
    (cooVal (Wsp_nt 2 exEntries 2)
        ((1 : Fin 2).val * 2 + ((0 : Fin 2)).val)
        ((1 : Fin 2).val * 2 + ((1 : Fin 2)).val) =
      if (1 : Fin 2) = (1 : Fin 2) then Wex 0 1 else 0) :=
  claim_C4_spatial_operator 2 2 Wex exEntries (by decide)
    (by intro b d; fin_cases b <;> fin_cases d <;>
      norm_num [cooVal, Wex, exEntries]) 1 1 0 1

/-! ## Claim C5 -/

/-- The Gram block `x'x` is symmetric. -/
theorem xtx_symm {N k : ℕ} (x : Matrix (Fin N) (Fin k) ℚ) (p q : Fin k) :
    (x.transpose * x) p q = (x.transpose * x) q p := by
  simp [Matrix.mul_apply, Matrix.transpose_apply, mul_comm]

/-- The assembled information matrix is symmetric. -/
theorem infoMat_transpose (k N : ℕ) (x : Matrix (Fin N) (Fin k) ℚ)
    (xTwpy : Fin k → ℚ) (t : ℕ) (tr1 tr2 tr3 wpyTwpy sig2 : ℚ) (n : ℕ) :
    (infoMat k N x xTwpy t tr1 tr2 tr3 wpyTwpy sig2 n).transpose =
      infoMat k N x xTwpy t tr1 tr2 tr3 wpyTwpy sig2 n := by
  ext i j
  simp only [Matrix.transpose_apply, infoMat]
  split_ifs <;> first
    | rfl
    | omega
    | (rw [xtx_symm x])

/-- Claim C5: the `(k+2) x (k+2)` covariance matrix `vm1` (including the
sigma-squared parameter) equals its own transpose, for every assembled
information matrix. -/
theorem claim_C5_vm1_symmetric (k N : ℕ) (x : Matrix (Fin N) (Fin k) ℚ)
    (xTwpy : Fin k → ℚ) (t : ℕ) (tr1 tr2 tr3 wpyTwpy sig2 : ℚ) (n : ℕ) :
    (vm1 k N x xTwpy t tr1 tr2 tr3 wpyTwpy sig2 n).transpose =
      vm1 k N x xTwpy t tr1 tr2 tr3 wpyTwpy sig2 n := by
  simp only [vm1]
  rw [Matrix.transpose_nonsing_inv, infoMat_transpose]
